import Mathlib

/-!
Shallow embedding of `app/main.py` (document-analyzer HTTP service).

The repository's own logic is orchestration glue: it loads a config file,
keeps a FAISS vector index loaded in memory and persisted on disk at the
fixed path "vectorstore", splits uploaded documents into chunks, appends
the chunks (with per-chunk metadata) to the index, persists the index,
and asks an LLM chain questions over the index.

External collaborators (the langchain text splitter, the embedding /
`add_texts` call, disk persistence, and the `RetrievalQA` chain over the
LLM) are modelled as oracles gathered in an `Env` record: the repository
neither implements nor constrains them, only sequences their calls.
Python exceptions raised by a collaborator are modelled as `Except.error`
outcomes of the corresponding oracle; the repository's mutable
`vector_store` (its in-memory FAISS object plus the persisted copy) is
the explicit `AnalyzerState` threaded through each operation.
-/

/-- A metadata record, as the Python dict of string keys and values
(`filename`, `timestamp`, `version` for uploads). -/
abbrev MetadataRec := List (String × String)

/-- One entry of the vector index: a chunk text with its metadata record.
(The embedding vector itself is produced and consumed by the library and
never inspected by this repository, so it is not part of the model.) -/
structure Entry where
  text : String
  metadata : MetadataRec
deriving DecidableEq, Repr

/-- The analyzer's vector-store state: the in-memory FAISS index
(`self.vector_store`) and the persisted copy at the fixed path
"vectorstore" (`none` when no persisted index exists on disk). -/
structure AnalyzerState where
  memIndex : List Entry
  diskIndex : Option (List Entry)
deriving DecidableEq, Repr

/-- The result dict returned by `DocumentAnalyzer.process_document`. -/
structure AnalysisResult where
  status : String
  timestamp : String
  metadata : MetadataRec
  analysis : String
deriving DecidableEq, Repr

/-- A JSON response body produced by the handlers. -/
inductive RespBody where
  | err : String → RespBody
  | analysis : AnalysisResult → RespBody
  | qa : String → String → RespBody
deriving DecidableEq, Repr

/-- An HTTP response: status code plus JSON body. -/
structure HttpResponse where
  statusCode : Nat
  body : RespBody
deriving DecidableEq, Repr

/-- An uploaded file: its reported filename and its raw bytes. -/
structure UploadFile where
  filename : String
  contentBytes : List Nat
deriving DecidableEq, Repr

/-- Oracles for the external collaborators of one request, plus the wall
clock. `split c o` models `RecursiveCharacterTextSplitter(chunk_size=c,
chunk_overlap=o).split_text`; `addResult` is the outcome of the
embedding + `add_texts` call (an `error` models the library raising
before the index is mutated); `persistResult` is the outcome of
`save_local("vectorstore")`; `runChain idx q` models building
`RetrievalQA.from_chain_type` over a retriever for the index `idx` and
calling `.run(q)`. `nowUpload` and `nowProcess` are the two
`datetime.now().isoformat()` readings taken by the handler and by
`process_document`. -/
structure Env where
  split : Nat → Nat → String → List String
  nowUpload : String
  nowProcess : String
  addResult : Except String Unit
  persistResult : Except String Unit
  runChain : List Entry → String → Except String String

/-- `FAISS.add_texts(texts, metadatas=...)`: append one entry per
(text, metadata) pair to the in-memory index. -/
def add_texts (st : AnalyzerState) (texts : List String)
    (metadatas : List MetadataRec) : AnalyzerState :=
  { st with memIndex := st.memIndex ++ (texts.zip metadatas).map (fun p => ⟨p.1, p.2⟩) }

/-- `save_local("vectorstore")`: overwrite the persisted index with the
current in-memory index. -/
def save_local (st : AnalyzerState) : AnalyzerState :=
  { st with diskIndex := some st.memIndex }

/-- The fixed summarization question issued by `process_document`. -/
def summaryQuestion : String :=
  "Provide a brief summary of the main topics in this document."

/-- `DocumentAnalyzer.process_document(content, metadata)`: split the
text at chunk size 1000 and overlap 200, append the chunks to the index
with one copy of `metadata` per chunk, persist the index, then run the
fixed summarization question over a retriever on the whole index. Any
exception propagates (re-raised after logging); the state at the moment
of the failure is kept, since the Python object keeps its mutations. -/
def process_document (env : Env) (st : AnalyzerState) (content : String)
    (metadata : MetadataRec) : AnalyzerState × Except String AnalysisResult :=
  let chunks := env.split 1000 200 content
  let metadatas := chunks.map (fun _ => metadata)
  match env.addResult with
  | .error e => (st, .error e)
  | .ok _ =>
    let st1 := add_texts st chunks metadatas
    match env.persistResult with
    | .error e => (st1, .error e)
    | .ok _ =>
      let st2 := save_local st1
      match env.runChain st2.memIndex summaryQuestion with
      | .error e => (st2, .error e)
      | .ok analysis =>
        (st2, .ok { status := "success", timestamp := env.nowProcess,
                    metadata := metadata, analysis := analysis })

/-- Is `b` a UTF-8 continuation byte (0x80..0xBF)? -/
def isCont (b : Nat) : Bool := 0x80 ≤ b && b ≤ 0xBF

/-- One step of strict UTF-8 decoding (the semantics of CPython's
`bytes.decode("utf-8")`, which rejects overlong forms, surrogates and
code points above U+10FFFF), with fuel bounding the recursion depth. -/
def utf8DecodeAux : Nat → List Nat → Option (List Char)
  | _, [] => some []
  | 0, _ :: _ => none
  | fuel + 1, b :: bs =>
    if b ≤ 0x7F then
      (utf8DecodeAux fuel bs).map (fun cs => Char.ofNat b :: cs)
    else if 0xC2 ≤ b && b ≤ 0xDF then
      match bs with
      | b1 :: bs1 =>
        if isCont b1 then
          (utf8DecodeAux fuel bs1).map
            (fun cs => Char.ofNat ((b - 0xC0) * 0x40 + (b1 - 0x80)) :: cs)
        else none
      | [] => none
    else if 0xE0 ≤ b && b ≤ 0xEF then
      match bs with
      | b1 :: b2 :: bs1 =>
        let firstOk :=
          if b == 0xE0 then 0xA0 ≤ b1 && b1 ≤ 0xBF
          else if b == 0xED then 0x80 ≤ b1 && b1 ≤ 0x9F
          else isCont b1
        if firstOk && isCont b2 then
          (utf8DecodeAux fuel bs1).map
            (fun cs =>
              Char.ofNat ((b - 0xE0) * 0x1000 + (b1 - 0x80) * 0x40 + (b2 - 0x80)) :: cs)
        else none
      | _ => none
    else if 0xF0 ≤ b && b ≤ 0xF4 then
      match bs with
      | b1 :: b2 :: b3 :: bs1 =>
        let firstOk :=
          if b == 0xF0 then 0x90 ≤ b1 && b1 ≤ 0xBF
          else if b == 0xF4 then 0x80 ≤ b1 && b1 ≤ 0x8F
          else isCont b1
        if firstOk && isCont b2 && isCont b3 then
          (utf8DecodeAux fuel bs1).map
            (fun cs =>
              Char.ofNat ((b - 0xF0) * 0x40000 + (b1 - 0x80) * 0x1000
                + (b2 - 0x80) * 0x40 + (b3 - 0x80)) :: cs)
        else none
      | _ => none
    else none

/-- `content.decode("utf-8")`: `some` the decoded string, `none` when the
bytes are not valid UTF-8 (a `UnicodeDecodeError`). Each decoding step
consumes at least one byte, so `bs.length` fuel always suffices. -/
def utf8Decode (bs : List Nat) : Option String :=
  (utf8DecodeAux bs.length bs).map String.mk

/-- The metadata dict built by the `/analyze` handler for an upload. -/
def uploadMetadata (env : Env) (file : UploadFile) : MetadataRec :=
  [("filename", file.filename), ("timestamp", env.nowUpload), ("version", "1.0")]

/-- The `/analyze` handler: reject payloads over 10 MB, reject non-UTF-8
payloads, otherwise run `process_document` and convert its outcome to a
JSON response; a pipeline exception becomes a 500 response embedding the
exception text. -/
def analyze_document (env : Env) (st : AnalyzerState) (file : UploadFile) :
    AnalyzerState × HttpResponse :=
  if file.contentBytes.length > 1024 * 1024 * 10 then
    (st, { statusCode := 400, body := .err "File too large. Maximum size is 10MB" })
  else
    match utf8Decode file.contentBytes with
    | none =>
      (st, { statusCode := 400, body := .err "File must be a valid text document" })
    | some content =>
      match process_document env st content (uploadMetadata env file) with
      | (st1, .ok result) => (st1, { statusCode := 200, body := .analysis result })
      | (st1, .error e) =>
        (st1, { statusCode := 500,
                body := .err ("Error processing document: " ++ e) })

/-- The `/query` handler: run the question over a retriever on the whole
index; an exception becomes a 500 response embedding the exception text.
The state is never mutated. -/
def query_documents (env : Env) (st : AnalyzerState) (question : String) :
    AnalyzerState × HttpResponse :=
  match env.runChain st.memIndex question with
  | .ok answer => (st, { statusCode := 200, body := .qa question answer })
  | .error e =>
    (st, { statusCode := 500, body := .err ("Error querying documents: " ++ e) })

/-- The placeholder entry seeding a fresh index:
`FAISS.from_texts(["initialization"], ...)` with no metadata. -/
def placeholderEntry : Entry := { text := "initialization", metadata := [] }

/-- `DocumentAnalyzer.initialize_vector_store`: load the persisted index
when one exists at the fixed path, otherwise build a fresh index holding
the single placeholder entry. -/
def initialize_vector_store (disk : Option (List Entry)) : List Entry :=
  match disk with
  | some entries => entries
  | none => [placeholderEntry]

/-- The config file as seen by `load_config`: missing (`open` raises),
malformed (`yaml.safe_load` raises), or parsed to a key-value dict. -/
inductive ConfigFile where
  | missing : ConfigFile
  | malformed : String → ConfigFile
  | parsed : List (String × String) → ConfigFile
deriving DecidableEq, Repr

/-- A successfully loaded configuration: the parsed dict and the value
written to the process-wide environment variable `OPENAI_API_KEY`. -/
structure LoadedConfig where
  config : List (String × String)
  openaiApiKeyEnv : String
deriving DecidableEq, Repr

/-- `DocumentAnalyzer.load_config`: open and parse the settings file,
then write `config['openai_api_key']` into `os.environ["OPENAI_API_KEY"]`.
Every failure (missing file, parse error, absent key) re-raises, and the
constructor — run at import time to build the module-level `analyzer` —
propagates it, so the process cannot start. -/
def load_config : ConfigFile → Except String LoadedConfig
  | .missing => .error "FileNotFoundError"
  | .malformed e => .error e
  | .parsed cfg =>
    match cfg.lookup "openai_api_key" with
    | none => .error "KeyError: openai_api_key"
    | some k => .ok { config := cfg, openaiApiKeyEnv := k }

/-- States of the analyzer reachable through this repository's own
operations, across process restarts: a first boot with no persisted
index, a reboot loading a previously persisted index, and the two
endpoint operations. -/
inductive Reachable : AnalyzerState → Prop where
  | bootFresh :
      Reachable { memIndex := initialize_vector_store none, diskIndex := none }
  | bootReload (st : AnalyzerState) (l : List Entry) :
      Reachable st → st.diskIndex = some l →
      Reachable { memIndex := initialize_vector_store (some l), diskIndex := some l }
  | analyzeStep (st : AnalyzerState) (env : Env) (f : UploadFile) :
      Reachable st → Reachable (analyze_document env st f).1
  | queryStep (st : AnalyzerState) (env : Env) (q : String) :
      Reachable st → Reachable (query_documents env st q).1

/-- A concrete analyzer state for witnesses: a fresh first-boot index. -/
def st0 : AnalyzerState := { memIndex := [placeholderEntry], diskIndex := none }

/-- A concrete environment for witnesses in which every collaborator
succeeds. -/
def okEnv : Env :=
  { split := fun _ _ c => [c]
    nowUpload := "2024-01-01T00:00:00"
    nowProcess := "2024-01-01T00:00:01"
    addResult := .ok ()
    persistResult := .ok ()
    runChain := fun _ _ => .ok "a summary" }

/-- A concrete environment whose `save_local` call fails. -/
def persistFailEnv : Env := { okEnv with persistResult := .error "disk full" }

/-- A concrete environment whose embedding / `add_texts` call fails. -/
def addFailEnv : Env := { okEnv with addResult := .error "embedding API down" }

/-- A concrete environment whose `RetrievalQA` chain call fails. -/
def chainFailEnv : Env := { okEnv with runChain := fun _ _ => .error "rate limit" }

/-- A concrete environment whose chain only answers the question quoted
by the spec, and fails on every other question. -/
def specQuestionEnv : Env :=
  { okEnv with
    runChain := fun _ q =>
      if q = "provide a brief summary of the main topics" then .ok "ans"
      else .error "question not issued" }

/-- Zipping a list with the constant-metadata list built from it pairs
each chunk with that metadata record. -/
theorem zip_const_metadata (l : List String) (m : MetadataRec) :
    (l.zip (List.replicate l.length m)).map (fun p => (⟨p.1, p.2⟩ : Entry))
      = l.map (fun c => ⟨c, m⟩) := by
  induction l with
  | nil => rfl
  | cons c cs ih =>
    simp only [List.length_cons, List.replicate_succ, List.zip_cons_cons,
      List.map_cons, ih]

/-- `process_document` when the `add_texts` call raises: nothing was
inserted and the exception propagates. -/
theorem process_document_add_error (env : Env) (st : AnalyzerState)
    (content : String) (metadata : MetadataRec) (e : String)
    (hadd : env.addResult = .error e) :
    process_document env st content metadata = (st, .error e) := by
  simp [process_document, hadd]

/-- `process_document` when insertion succeeds but `save_local` raises:
the chunks stay in the in-memory index, the persisted index is left as it
was, and the exception propagates. -/
theorem process_document_persist_error (env : Env) (st : AnalyzerState)
    (content : String) (metadata : MetadataRec) (e : String)
    (hadd : env.addResult = .ok ()) (hpersist : env.persistResult = .error e) :
    process_document env st content metadata =
      ({ memIndex := st.memIndex
            ++ (env.split 1000 200 content).map (fun c => ⟨c, metadata⟩),
         diskIndex := st.diskIndex }, .error e) := by
  simp [process_document, hadd, hpersist, add_texts, zip_const_metadata]

/-- `process_document` when insertion and persistence succeed but the
summarization chain raises: the chunks are in the in-memory index and in
the persisted index, and the exception propagates. -/
theorem process_document_chain_error (env : Env) (st : AnalyzerState)
    (content : String) (metadata : MetadataRec) (e : String)
    (hadd : env.addResult = .ok ()) (hpersist : env.persistResult = .ok ())
    (hrun : env.runChain
        (st.memIndex ++ (env.split 1000 200 content).map (fun c => ⟨c, metadata⟩))
        summaryQuestion = .error e) :
    process_document env st content metadata =
      ({ memIndex := st.memIndex
            ++ (env.split 1000 200 content).map (fun c => ⟨c, metadata⟩),
         diskIndex := some (st.memIndex
            ++ (env.split 1000 200 content).map (fun c => ⟨c, metadata⟩)) },
       .error e) := by
  simp [process_document, hadd, hpersist, add_texts, save_local,
    zip_const_metadata, hrun]

/-- `process_document` when every step succeeds: the chunks are inserted
and persisted and the summarization answer is returned with status
`success`, a timestamp and the submitted metadata. -/
theorem process_document_ok (env : Env) (st : AnalyzerState)
    (content : String) (metadata : MetadataRec) (a : String)
    (hadd : env.addResult = .ok ()) (hpersist : env.persistResult = .ok ())
    (hrun : env.runChain
        (st.memIndex ++ (env.split 1000 200 content).map (fun c => ⟨c, metadata⟩))
        summaryQuestion = .ok a) :
    process_document env st content metadata =
      ({ memIndex := st.memIndex
            ++ (env.split 1000 200 content).map (fun c => ⟨c, metadata⟩),
         diskIndex := some (st.memIndex
            ++ (env.split 1000 200 content).map (fun c => ⟨c, metadata⟩)) },
       .ok { status := "success", timestamp := env.nowProcess,
             metadata := metadata, analysis := a }) := by
  simp [process_document, hadd, hpersist, add_texts, save_local,
    zip_const_metadata, hrun]

/-- The `/analyze` handler forwards the state produced by
`process_document` unchanged, whatever its outcome, once the upload has
passed the size and decoding checks. -/
theorem analyze_document_fst (env : Env) (st : AnalyzerState) (file : UploadFile)
    (content : String)
    (hsize : ¬ file.contentBytes.length > 1024 * 1024 * 10)
    (hdec : utf8Decode file.contentBytes = some content) :
    (analyze_document env st file).1
      = (process_document env st content (uploadMetadata env file)).1 := by
  unfold analyze_document
  rw [if_neg hsize, hdec]
  rcases h : process_document env st content (uploadMetadata env file) with ⟨st1, r⟩
  cases r <;> simp [h]

/-- Every run of `process_document` only appends to the in-memory index,
and either leaves the persisted index alone or overwrites it with the new
in-memory index. -/
theorem process_document_state (env : Env) (st : AnalyzerState)
    (content : String) (metadata : MetadataRec) :
    ∃ t, (process_document env st content metadata).1.memIndex = st.memIndex ++ t ∧
      ((process_document env st content metadata).1.diskIndex = st.diskIndex ∨
       (process_document env st content metadata).1.diskIndex
         = some ((process_document env st content metadata).1.memIndex)) := by
  rcases hadd : env.addResult with e | u
  · rw [process_document_add_error env st content metadata e hadd]
    exact ⟨[], by simp, Or.inl rfl⟩
  · cases u
    rcases hpersist : env.persistResult with e | v
    · rw [process_document_persist_error env st content metadata e hadd hpersist]
      exact ⟨_, rfl, Or.inl rfl⟩
    · cases v
      rcases hrun : env.runChain
          (st.memIndex ++ (env.split 1000 200 content).map (fun c => ⟨c, metadata⟩))
          summaryQuestion with e | a
      · rw [process_document_chain_error env st content metadata e hadd hpersist hrun]
        exact ⟨_, rfl, Or.inr rfl⟩
      · rw [process_document_ok env st content metadata a hadd hpersist hrun]
        exact ⟨_, rfl, Or.inr rfl⟩

/-- Every run of the `/analyze` handler only appends to the in-memory
index, and either leaves the persisted index alone or overwrites it with
the new in-memory index. -/
theorem analyze_document_state (env : Env) (st : AnalyzerState) (file : UploadFile) :
    ∃ t, (analyze_document env st file).1.memIndex = st.memIndex ++ t ∧
      ((analyze_document env st file).1.diskIndex = st.diskIndex ∨
       (analyze_document env st file).1.diskIndex
         = some ((analyze_document env st file).1.memIndex)) := by
  by_cases hsize : file.contentBytes.length > 1024 * 1024 * 10
  · refine ⟨[], ?_, Or.inl ?_⟩ <;> simp [analyze_document, hsize]
  · rcases hdec : utf8Decode file.contentBytes with _ | content
    · refine ⟨[], ?_, Or.inl ?_⟩ <;> simp [analyze_document, hsize, hdec]
    · rw [analyze_document_fst env st file content hsize hdec]
      exact process_document_state env st content (uploadMetadata env file)

/-- The `/query` handler never changes the analyzer state. -/
theorem query_documents_fst (env : Env) (st : AnalyzerState) (q : String) :
    (query_documents env st q).1 = st := by
  unfold query_documents
  rcases h : env.runChain st.memIndex q with e | a <;> simp

/-- Invariant of every reachable analyzer state: the in-memory index is
never empty, and a persisted index, when present, is never empty. -/
theorem reachable_nonempty (st : AnalyzerState) (h : Reachable st) :
    st.memIndex ≠ [] ∧ ∀ l, st.diskIndex = some l → l ≠ [] := by
  induction h with
  | bootFresh =>
    refine ⟨by simp [initialize_vector_store], ?_⟩
    intro l hl
    simp at hl
  | bootReload st l hst hdisk ih =>
    refine ⟨?_, ?_⟩
    · simpa [initialize_vector_store] using ih.2 l hdisk
    · intro l1 hl1
      simp only [Option.some.injEq] at hl1
      exact hl1 ▸ ih.2 l hdisk
  | analyzeStep st env f hst ih =>
    rcases analyze_document_state env st f with ⟨t, hmem, hdisk1⟩
    refine ⟨?_, ?_⟩
    · rw [hmem]
      simp [ih.1]
    · intro l hl
      rcases hdisk1 with h1 | h1
      · exact ih.2 l (h1 ▸ hl)
      · rw [h1] at hl
        simp only [Option.some.injEq] at hl
        rw [← hl, hmem]
        simp [ih.1]
  | queryStep st env q hst ih =>
    rw [query_documents_fst env st q]
    exact ih

/-- Auxiliary: once the `add_texts` call has succeeded, the in-memory
index holds exactly the old entries followed by one entry per chunk,
each carrying the submitted metadata — whatever happens later. -/
theorem process_document_mem_of_add_ok (env : Env) (st : AnalyzerState)
    (content : String) (metadata : MetadataRec)
    (hadd : env.addResult = .ok ()) :
    (process_document env st content metadata).1.memIndex
      = st.memIndex ++ (env.split 1000 200 content).map (fun c => ⟨c, metadata⟩) := by
  rcases hpersist : env.persistResult with e | v
  · rw [process_document_persist_error env st content metadata e hadd hpersist]
  · cases v
    rcases hrun : env.runChain
        (st.memIndex ++ (env.split 1000 200 content).map (fun c => ⟨c, metadata⟩))
        summaryQuestion with e | a
    · rw [process_document_chain_error env st content metadata e hadd hpersist hrun]
    · rw [process_document_ok env st content metadata a hadd hpersist hrun]

/-- Claim C1: for every document text submitted to ingestion, the number
of chunks inserted into the vector index equals the number of chunks
produced by the library splitter at chunk size 1000 and overlap 200, and
the metadata list passed to the index has one entry per chunk, each
equal to the single submitted metadata record, so every inserted chunk
carries that record. -/
theorem claim_C1_chunk_count_and_metadata (env : Env) (st : AnalyzerState)
    (content : String) (metadata : MetadataRec)
    (hadd : env.addResult = .ok ()) :
    ((env.split 1000 200 content).map (fun _ => metadata)).length
        = (env.split 1000 200 content).length
    ∧ (∀ m ∈ (env.split 1000 200 content).map (fun _ => metadata), m = metadata)
    ∧ (process_document env st content metadata).1.memIndex
        = st.memIndex ++ (env.split 1000 200 content).map (fun c => ⟨c, metadata⟩)
    ∧ ((process_document env st content metadata).1.memIndex).length
        = st.memIndex.length + (env.split 1000 200 content).length := by
  have hmem := process_document_mem_of_add_ok env st content metadata hadd
  refine ⟨by simp, ?_, hmem, ?_⟩
  · intro m hm
    rcases List.mem_map.mp hm with ⟨c, _, hEq⟩
    exact hEq.symm
  · rw [hmem]
    simp

/-- Witness for claim C1 at a concrete environment and document. -/
theorem claim_C1_witness :
    okEnv.addResult = .ok () ∧
    (process_document okEnv st0 "doc" [("filename", "f")]).1.memIndex
      = st0.memIndex
          ++ (okEnv.split 1000 200 "doc").map (fun c => ⟨c, [("filename", "f")]⟩) :=
  ⟨rfl, (claim_C1_chunk_count_and_metadata okEnv st0 "doc" [("filename", "f")] rfl).2.2.1⟩

/-- Claim C2: every upload whose payload is strictly larger than
10485760 bytes gets the 400 size-error response, and the analyzer state
(in-memory index and persisted index) is left exactly as it was. -/
theorem claim_C2_size_limit (env : Env) (st : AnalyzerState) (file : UploadFile)
    (h : file.contentBytes.length > 1024 * 1024 * 10) :
    analyze_document env st file
      = (st, { statusCode := 400,
               body := .err "File too large. Maximum size is 10MB" }) := by
  unfold analyze_document
  rw [if_pos h]

/-- Witness for claim C2 at a concrete 10485761-byte upload. -/
theorem claim_C2_witness :
    (List.replicate 10485761 (0 : Nat)).length > 1024 * 1024 * 10 ∧
    analyze_document okEnv st0
        { filename := "big.txt", contentBytes := List.replicate 10485761 0 }
      = (st0, { statusCode := 400,
                body := .err "File too large. Maximum size is 10MB" }) := by
  have h : (List.replicate 10485761 (0 : Nat)).length > 1024 * 1024 * 10 := by
    rw [List.length_replicate]
    norm_num
  exact ⟨h, claim_C2_size_limit okEnv st0 _ h⟩

/-- Claim C3: every upload within the size limit whose payload is not
valid UTF-8 gets the 400 decode-error response, and the analyzer state
(in-memory index and persisted index) is left exactly as it was. -/
theorem claim_C3_utf8_reject (env : Env) (st : AnalyzerState) (file : UploadFile)
    (hsize : ¬ file.contentBytes.length > 1024 * 1024 * 10)
    (hdec : utf8Decode file.contentBytes = none) :
    analyze_document env st file
      = (st, { statusCode := 400,
               body := .err "File must be a valid text document" }) := by
  unfold analyze_document
  rw [if_neg hsize, hdec]

/-- Witness for claim C3 at the one-byte payload 0xFF, which is not
valid UTF-8. -/
theorem claim_C3_witness :
    ¬ ([255] : List Nat).length > 1024 * 1024 * 10 ∧
    utf8Decode [255] = none ∧
    analyze_document okEnv st0 { filename := "blob.bin", contentBytes := [255] }
      = (st0, { statusCode := 400,
                body := .err "File must be a valid text document" }) :=
  ⟨by decide, by decide,
   claim_C3_utf8_reject okEnv st0 _ (by decide) (by decide)⟩

/-- Claim C4: ingestion is split, then insert, then persist, then
summarize, and it is not atomic. When `save_local` fails after the
chunks were inserted, the inserted chunks stay in the in-memory index
while the persisted index is left as it was (the two can diverge), the
exception propagates out of `process_document`, and the summarization
oracle is never consulted (the outcome is the same for every chain). -/
theorem claim_C4_no_rollback (env : Env) (st : AnalyzerState) (content : String)
    (metadata : MetadataRec) (e : String)
    (hadd : env.addResult = .ok ()) (hpersist : env.persistResult = .error e) :
    process_document env st content metadata
      = ({ memIndex := st.memIndex
              ++ (env.split 1000 200 content).map (fun c => ⟨c, metadata⟩),
           diskIndex := st.diskIndex }, .error e)
    ∧ (∀ rc, process_document { env with runChain := rc } st content metadata
          = process_document env st content metadata) := by
  have h1 := process_document_persist_error env st content metadata e hadd hpersist
  refine ⟨h1, fun rc => ?_⟩
  have h2 := process_document_persist_error { env with runChain := rc }
      st content metadata e hadd hpersist
  rw [h1, h2]

/-- Witness for claim C4 at a concrete environment whose persistence
call fails. -/
theorem claim_C4_witness :
    persistFailEnv.addResult = .ok () ∧
    persistFailEnv.persistResult = .error "disk full" ∧
    process_document persistFailEnv st0 "doc" [("filename", "f")]
      = ({ memIndex := st0.memIndex
              ++ (persistFailEnv.split 1000 200 "doc").map
                  (fun c => ⟨c, [("filename", "f")]⟩),
           diskIndex := st0.diskIndex }, .error "disk full") :=
  ⟨rfl, rfl,
   (claim_C4_no_rollback persistFailEnv st0 "doc" [("filename", "f")]
      "disk full" rfl rfl).1⟩

/-- Claim C5 counterexample: the fixed summarization question issued by
`process_document` is not the string "provide a brief summary of the
main topics"; a chain that only answers that quoted string is never
asked it, so ingestion fails with the chain's other-question error. -/
theorem claim_C5_counterexample :
    summaryQuestion ≠ "provide a brief summary of the main topics" ∧
    (process_document specQuestionEnv st0 "coffee brewing" [("filename", "c.txt")]).2
      = .error "question not issued" :=
  ⟨by decide, rfl⟩

/-- Claim C5 as amended: after inserting and persisting the chunks,
ingestion issues exactly one fixed summarization question — the string
"Provide a brief summary of the main topics in this document." —
against a retriever over the whole vector index (old entries included,
not only the newly added chunks), and on success returns that answer
under `analysis` together with status `success`, a timestamp, and the
original submitted metadata. -/
theorem claim_C5_summary_question (env : Env) (st : AnalyzerState)
    (content : String) (metadata : MetadataRec) (a : String)
    (hadd : env.addResult = .ok ()) (hpersist : env.persistResult = .ok ())
    (hrun : env.runChain
        (st.memIndex ++ (env.split 1000 200 content).map (fun c => ⟨c, metadata⟩))
        summaryQuestion = .ok a) :
    summaryQuestion = "Provide a brief summary of the main topics in this document." ∧
    process_document env st content metadata
      = ({ memIndex := st.memIndex
              ++ (env.split 1000 200 content).map (fun c => ⟨c, metadata⟩),
           diskIndex := some (st.memIndex
              ++ (env.split 1000 200 content).map (fun c => ⟨c, metadata⟩)) },
         .ok { status := "success", timestamp := env.nowProcess,
               metadata := metadata, analysis := a }) :=
  ⟨rfl, process_document_ok env st content metadata a hadd hpersist hrun⟩

/-- Witness for the amended claim C5 at a concrete environment in which
every collaborator succeeds. -/
theorem claim_C5_witness :
    okEnv.runChain
        (st0.memIndex ++ (okEnv.split 1000 200 "doc").map
            (fun c => ⟨c, ([] : MetadataRec)⟩)) summaryQuestion = .ok "a summary" ∧
    process_document okEnv st0 "doc" []
      = ({ memIndex := st0.memIndex
              ++ (okEnv.split 1000 200 "doc").map (fun c => ⟨c, ([] : MetadataRec)⟩),
           diskIndex := some (st0.memIndex
              ++ (okEnv.split 1000 200 "doc").map (fun c => ⟨c, ([] : MetadataRec)⟩)) },
         .ok { status := "success", timestamp := okEnv.nowProcess,
               metadata := [], analysis := "a summary" }) :=
  ⟨rfl, (claim_C5_summary_question okEnv st0 "doc" [] "a summary" rfl rfl rfl).2⟩

/-- Claim C6: at startup, a persisted index present at the fixed path is
loaded; otherwise a fresh index is built holding exactly the one
placeholder entry. For any disk state this repository can have produced
(no file yet, or a previously persisted index), the initialized index is
never empty. -/
theorem claim_C6_startup_index (disk : Option (List Entry))
    (h : disk = none ∨ ∃ st, Reachable st ∧ st.diskIndex = disk) :
    (disk = none → initialize_vector_store disk = [placeholderEntry])
    ∧ (∀ l, disk = some l → initialize_vector_store disk = l)
    ∧ initialize_vector_store disk ≠ [] := by
  refine ⟨fun hd => by rw [hd]; rfl, fun l hd => by rw [hd]; rfl, ?_⟩
  rcases disk with _ | l
  · simp [initialize_vector_store]
  · rcases h with h | ⟨st, hst, hdisk⟩
    · simp at h
    · have hl := (reachable_nonempty st hst).2 l hdisk
      simpa [initialize_vector_store] using hl

/-- Witness for claim C6 at the first-boot disk state. -/
theorem claim_C6_witness :
    ((none : Option (List Entry)) = none
        ∨ ∃ st, Reachable st ∧ st.diskIndex = none)
    ∧ initialize_vector_store none ≠ [] :=
  ⟨Or.inl rfl, (claim_C6_startup_index none (Or.inl rfl)).2.2⟩

/-- Claim C7: `load_config` fails (so the constructor, run at import
time, raises and the process cannot start) when the settings file is
missing, malformed, or lacks the key `openai_api_key`; on success the
credential value is written to the process-wide environment variable
`OPENAI_API_KEY`. -/
theorem claim_C7_load_config (f : ConfigFile) :
    (f = .missing → ∃ e, load_config f = .error e)
    ∧ (∀ e, f = .malformed e → load_config f = .error e)
    ∧ (∀ cfg, f = .parsed cfg → cfg.lookup "openai_api_key" = none →
        ∃ e, load_config f = .error e)
    ∧ (∀ cfg k, f = .parsed cfg → cfg.lookup "openai_api_key" = some k →
        load_config f = .ok { config := cfg, openaiApiKeyEnv := k }) := by
  refine ⟨?_, ?_, ?_, ?_⟩
  · intro hf
    exact ⟨"FileNotFoundError", by rw [hf]; rfl⟩
  · intro e hf
    rw [hf]
    rfl
  · intro cfg hf hk
    refine ⟨"KeyError: openai_api_key", ?_⟩
    rw [hf]
    simp [load_config, hk]
  · intro cfg k hf hk
    rw [hf]
    simp [load_config, hk]

/-- Witness for claim C7 at a concrete parsed config carrying the key. -/
theorem claim_C7_witness :
    ([("openai_api_key", "sk-test")] : List (String × String)).lookup
        "openai_api_key" = some "sk-test" ∧
    load_config (.parsed [("openai_api_key", "sk-test")])
      = .ok { config := [("openai_api_key", "sk-test")],
              openaiApiKeyEnv := "sk-test" } :=
  ⟨by decide,
   (claim_C7_load_config (.parsed [("openai_api_key", "sk-test")])).2.2.2
     [("openai_api_key", "sk-test")] "sk-test" rfl (by decide)⟩

/-- Claim C8: whenever the ingestion pipeline raises, the `/analyze`
handler returns a 500 response whose body is the single `error` field
embedding the raw exception text, and whenever the chain raises on a
question, the `/query` handler does the same; both handlers are total,
so no pipeline exception escapes, and no structured error code exists in
the response type. -/
theorem claim_C8_pipeline_errors (env : Env) (st : AnalyzerState) :
    (∀ (file : UploadFile) (content e : String),
        ¬ file.contentBytes.length > 1024 * 1024 * 10 →
        utf8Decode file.contentBytes = some content →
        (process_document env st content (uploadMetadata env file)).2 = .error e →
        analyze_document env st file
          = ((process_document env st content (uploadMetadata env file)).1,
             { statusCode := 500,
               body := .err ("Error processing document: " ++ e) }))
    ∧ (∀ q e, env.runChain st.memIndex q = .error e →
        query_documents env st q
          = (st, { statusCode := 500,
                   body := .err ("Error querying documents: " ++ e) })) := by
  constructor
  · intro file content e hsize hdec herr
    simp only [analyze_document, if_neg hsize, hdec]
    rcases hp : process_document env st content (uploadMetadata env file) with ⟨st1, r⟩
    rw [hp] at herr
    cases r with
    | ok a => simp at herr
    | error e1 =>
      obtain rfl : e1 = e := by simpa using herr
      rfl
  · intro q e h
    unfold query_documents
    rw [h]

/-- Witness for claim C8 at a concrete environment whose chain raises. -/
theorem claim_C8_witness :
    query_documents chainFailEnv st0 "anything"
      = (st0, { statusCode := 500,
                body := .err ("Error querying documents: " ++ "rate limit") })
    ∧ analyze_document chainFailEnv st0 { filename := "f.txt", contentBytes := [104, 105] }
      = ((process_document chainFailEnv st0 "hi"
            (uploadMetadata chainFailEnv
              { filename := "f.txt", contentBytes := [104, 105] })).1,
         { statusCode := 500,
           body := .err ("Error processing document: " ++ "rate limit") }) :=
  ⟨(claim_C8_pipeline_errors chainFailEnv st0).2 "anything" "rate limit" rfl,
   (claim_C8_pipeline_errors chainFailEnv st0).1
     { filename := "f.txt", contentBytes := [104, 105] } "hi" "rate limit"
     (by decide) (by decide) rfl⟩

/-- Claim C9: the vector index grows monotonically under every operation
of this repository — ingestion only appends entries to the in-memory
index, the `/analyze` handler as a whole only appends, and the `/query`
handler leaves the state untouched; no operation removes or updates an
entry. -/
theorem claim_C9_monotone :
    (∀ (env : Env) (st : AnalyzerState) (content : String) (metadata : MetadataRec),
        ∃ t, (process_document env st content metadata).1.memIndex
          = st.memIndex ++ t)
    ∧ (∀ (env : Env) (st : AnalyzerState) (file : UploadFile),
        ∃ t, (analyze_document env st file).1.memIndex = st.memIndex ++ t)
    ∧ (∀ (env : Env) (st : AnalyzerState) (q : String),
        (query_documents env st q).1 = st) := by
  refine ⟨?_, ?_, query_documents_fst⟩
  · intro env st content metadata
    rcases process_document_state env st content metadata with ⟨t, h, _⟩
    exact ⟨t, h⟩
  · intro env st file
    rcases analyze_document_state env st file with ⟨t, h, _⟩
    exact ⟨t, h⟩

/-- Claim C10: a 500 response from `/analyze` does not imply the index
was untouched. When insertion and persistence succeed and only the
summarization chain raises, the handler returns the 500
processing-error response while the document's chunks are present both
in the in-memory index and in the persisted index. -/
theorem claim_C10_mutation_before_500 (env : Env) (st : AnalyzerState)
    (file : UploadFile) (content e : String)
    (hsize : ¬ file.contentBytes.length > 1024 * 1024 * 10)
    (hdec : utf8Decode file.contentBytes = some content)
    (hadd : env.addResult = .ok ()) (hpersist : env.persistResult = .ok ())
    (hrun : env.runChain
        (st.memIndex ++ (env.split 1000 200 content).map
            (fun c => ⟨c, uploadMetadata env file⟩)) summaryQuestion = .error e) :
    analyze_document env st file
      = ({ memIndex := st.memIndex ++ (env.split 1000 200 content).map
              (fun c => ⟨c, uploadMetadata env file⟩),
           diskIndex := some (st.memIndex ++ (env.split 1000 200 content).map
              (fun c => ⟨c, uploadMetadata env file⟩)) },
         { statusCode := 500,
           body := .err ("Error processing document: " ++ e) }) := by
  have hp := process_document_chain_error env st content (uploadMetadata env file)
      e hadd hpersist hrun
  simp only [analyze_document, if_neg hsize, hdec]
  rw [hp]

/-- Witness for claim C10 at a concrete upload and an environment whose
chain raises after insertion and persistence succeeded. -/
theorem claim_C10_witness :
    utf8Decode [104, 105] = some "hi" ∧
    analyze_document chainFailEnv st0 { filename := "g.txt", contentBytes := [104, 105] }
      = ({ memIndex := st0.memIndex ++ (chainFailEnv.split 1000 200 "hi").map
              (fun c => ⟨c, uploadMetadata chainFailEnv
                  { filename := "g.txt", contentBytes := [104, 105] }⟩),
           diskIndex := some (st0.memIndex ++ (chainFailEnv.split 1000 200 "hi").map
              (fun c => ⟨c, uploadMetadata chainFailEnv
                  { filename := "g.txt", contentBytes := [104, 105] }⟩)) },
         { statusCode := 500,
           body := .err ("Error processing document: " ++ "rate limit") }) :=
  ⟨by decide,
   claim_C10_mutation_before_500 chainFailEnv st0
     { filename := "g.txt", contentBytes := [104, 105] } "hi" "rate limit"
     (by decide) (by decide) rfl rfl rfl⟩
